import Mathlib

/-!
# Desmoscript Script Loader (userscript, version 0.2)

A shallow embedding of `src/userscript/Desmoscript Script Loader-0.2.user.js`.

The script has three asynchronous functions, `getVersion` (line 36), `recompile`
(lines 37-42) and `recompileIfOutOfDate` (lines 60-69).  An `async` function runs
synchronously up to its next `await`, where it is suspended until the awaited promise
settles.  Each function is therefore embedded as a coroutine:

* a *start* function: the synchronous part from the call to the first `await`;
* a type of suspension points (one constructor per `await` in the source);
* a *resume* function: given the way the awaited promise settled, the synchronous part
  up to the next `await`, a `return`, or an exception leaving the function.

The variables shared by all activations live in `Page`.  `System` adds the set of
suspended activations and the browser events that move them, for properties of the
interleaved execution.
-/

namespace DesmoscriptLoader

/-- What `fetch` resolves with.  `fetch` resolves for every HTTP status; the script
reads the body through `.text()` (line 36) or `.json()` (line 39) and never looks at
`status`.  `json = none` stands for a body that is not valid JSON, for which `.json()`
rejects. -/
structure Response (J : Type) where
  status : Nat
  text : String
  json : Option J
deriving DecidableEq, Repr

/-- What the script does to the world outside its own variables, in program order,
together with the values `getVersion()` returns. -/
inductive Effect (J : Type) where
  /-- the call `fetch(url)`: an HTTP GET request is issued -/
  | fetch (url : String)
  /-- the body text that `getVersion()` returns to its caller -/
  | gotVersion (v : String)
  /-- the call `Calc.setState(j)` -/
  | setState (j : J)
  /-- the call `setTimeout(recompileIfOutOfDate, ms)` -/
  | setTimeout (ms : Nat)
deriving DecidableEq, Repr

/-- The mutable state the closures of the script share. -/
structure Page (J : Type) where
  /-- `urlInput.value` -/
  urlValue : String
  /-- `recompileInput.innerText`, the button label -/
  innerText : String
  /-- `lastLoadedVersion` (line 46) -/
  lastLoadedVersion : String
  /-- `autoRecompileInput.checked` -/
  checked : Bool
  /-- number of `setTimeout(recompileIfOutOfDate, 200)` callbacks not yet run -/
  timers : Nat
  /-- effects so far, oldest first -/
  log : List (Effect J)
deriving DecidableEq, Repr

/-- The host API `Calc.setState`: for each argument, whether the call throws. -/
structure Calc (J : Type) where
  throws : J → Bool

/-- How an awaited promise settles.  `rejected`: the promise rejects (a `fetch` that
fails, or a body that cannot be read).  `response r`: a `fetch` promise resolves with
`r`.  `body`: the body has been read, and the promise of `.text()` or `.json()` settles
with the value the response fixes. -/
inductive Signal (J : Type) where
  | rejected
  | response (r : Response J)
  | body
deriving DecidableEq, Repr

/-- Where an activation of an async function stands after a synchronous stretch:
suspended at the `await` numbered `k`, returned `a`, or left by an exception (its
promise rejects). -/
inductive Step (κ α : Type) where
  | suspended (k : κ)
  | returned (a : α)
  | rejected
deriving DecidableEq, Repr

/-- The two `await`s of `getVersion` (line 36). -/
inductive VersionPc (J : Type) where
  /-- at `await fetch(urlInput.value + "/version")` -/
  | fetch
  /-- at `await r.text()` -/
  | text (r : Response J)
deriving DecidableEq, Repr

/-- Line 36, from the call to the first `await`: the request is issued. -/
def getVersion {J : Type} (p : Page J) : Page J × VersionPc J :=
  ({ p with log := p.log ++ [Effect.fetch (p.urlValue ++ "/version")] }, VersionPc.fetch)

/-- Line 36, resumed at an `await`.  `none`: the signal is not one the awaited promise
can settle with. -/
def getVersionResume {J : Type} (p : Page J) :
    VersionPc J → Signal J → Option (Page J × Step (VersionPc J) String)
  | VersionPc.fetch, Signal.rejected => some (p, Step.rejected)
  | VersionPc.fetch, Signal.response r => some (p, Step.suspended (VersionPc.text r))
  | VersionPc.text r, Signal.body =>
    some ({ p with log := p.log ++ [Effect.gotVersion r.text] }, Step.returned r.text)
  | VersionPc.text _, Signal.rejected => some (p, Step.rejected)
  | _, _ => none

/-- The `await`s of `recompile` (lines 39 and 40). -/
inductive RecompilePc (J : Type) where
  /-- line 39, at `await fetch(urlInput.value)` -/
  | stateFetch
  /-- line 39, at `await r.json()` -/
  | stateJson (r : Response J)
  /-- line 40, at `await getVersion()`, with `getVersion` suspended at `k` -/
  | version (k : VersionPc J)
deriving DecidableEq, Repr

/-- Lines 38-39, from the call to the first `await`. -/
def recompile {J : Type} (p : Page J) : Page J × RecompilePc J :=
  let p1 : Page J := { p with innerText := "Fetching..." }
  ({ p1 with log := p1.log ++ [Effect.fetch p1.urlValue] }, RecompilePc.stateFetch)

/-- Lines 39-41, resumed at an `await`. -/
def recompileResume {J : Type} (host : Calc J) (p : Page J) :
    RecompilePc J → Signal J → Option (Page J × Step (RecompilePc J) Unit)
  | RecompilePc.stateFetch, Signal.rejected => some (p, Step.rejected)
  | RecompilePc.stateFetch, Signal.response r =>
    some (p, Step.suspended (RecompilePc.stateJson r))
  | RecompilePc.stateJson _, Signal.rejected => some (p, Step.rejected)
  | RecompilePc.stateJson r, Signal.body =>
    match r.json with
    | none => some (p, Step.rejected)
    | some j =>
      let p1 : Page J := { p with log := p.log ++ [Effect.setState j] }
      if host.throws j then some (p1, Step.rejected)
      else
        let pk := getVersion p1
        some (pk.1, Step.suspended (RecompilePc.version pk.2))
  | RecompilePc.version k, sig =>
    match getVersionResume p k sig with
    | none => none
    | some (p1, Step.suspended k1) => some (p1, Step.suspended (RecompilePc.version k1))
    | some (p1, Step.rejected) => some (p1, Step.rejected)
    | some (p1, Step.returned v) =>
      some ({ p1 with lastLoadedVersion := v, innerText := "Recompile" }, Step.returned ())
  | _, _ => none

/-- The `await`s of `recompileIfOutOfDate` (lines 63 and 65). -/
inductive TickPc (J : Type) where
  /-- line 63, at `await getVersion()` -/
  | version (k : VersionPc J)
  /-- line 65, at `await recompile()` -/
  | recompile (k : RecompilePc J)
deriving DecidableEq, Repr

/-- Line 68: `setTimeout(recompileIfOutOfDate, 200)`. -/
def schedule {J : Type} (p : Page J) : Page J :=
  { p with log := p.log ++ [Effect.setTimeout 200], timers := p.timers + 1 }

/-- Lines 60-69, from the call to the first `await` (or to the end, when the checkbox
is not checked). -/
def recompileIfOutOfDate {J : Type} (p : Page J) : Page J × Step (TickPc J) Unit :=
  if p.checked then
    let pk := getVersion p
    (pk.1, Step.suspended (TickPc.version pk.2))
  else (schedule p, Step.returned ())

/-- Lines 63-68, resumed at an `await`. -/
def tickResume {J : Type} (host : Calc J) (p : Page J) :
    TickPc J → Signal J → Option (Page J × Step (TickPc J) Unit)
  | TickPc.version k, sig =>
    match getVersionResume p k sig with
    | none => none
    | some (p1, Step.suspended k1) => some (p1, Step.suspended (TickPc.version k1))
    | some (p1, Step.rejected) => some (p1, Step.rejected)
    | some (p1, Step.returned version) =>
      if version = p1.lastLoadedVersion then some (schedule p1, Step.returned ())
      else
        let pk := recompile p1
        some (pk.1, Step.suspended (TickPc.recompile pk.2))
  | TickPc.recompile k, sig =>
    match recompileResume host p k sig with
    | none => none
    | some (p1, Step.suspended k1) => some (p1, Step.suspended (TickPc.recompile k1))
    | some (p1, Step.rejected) => some (p1, Step.rejected)
    | some (p1, Step.returned _) => some (schedule p1, Step.returned ())

/-- One activation run on its own: the awaited promises settle as `sigs` says, in
order, and nothing else touches the page in between.  `none`: a signal does not fit,
or one arrives after the activation has finished. -/
def drive {J κ α : Type} (resume : Page J → κ → Signal J → Option (Page J × Step κ α)) :
    Page J × Step κ α → List (Signal J) → Option (Page J × Step κ α)
  | st, [] => some st
  | (p, Step.suspended k), s :: ss =>
    match resume p k s with
    | none => none
    | some st => drive resume st ss
  | (_, Step.returned _), _ :: _ => none
  | (_, Step.rejected), _ :: _ => none

/-- One run of `recompile` from page `p`. -/
def recompileRun {J : Type} (host : Calc J) (p : Page J) (sigs : List (Signal J)) :
    Option (Page J × Step (RecompilePc J) Unit) :=
  drive (recompileResume host) ((recompile p).1, Step.suspended (recompile p).2) sigs

/-- One run of `getVersion` from page `p`. -/
def getVersionRun {J : Type} (p : Page J) (sigs : List (Signal J)) :
    Option (Page J × Step (VersionPc J) String) :=
  drive getVersionResume ((getVersion p).1, Step.suspended (getVersion p).2) sigs

/-- One poller tick (one invocation of `recompileIfOutOfDate`) from page `p`. -/
def tickRun {J : Type} (host : Calc J) (p : Page J) (sigs : List (Signal J)) :
    Option (Page J × Step (TickPc J) Unit) :=
  drive (tickResume host) (recompileIfOutOfDate p) sigs

/-- The timer callback: the pending timer is consumed and a tick runs. -/
def fire {J : Type} (p : Page J) : Page J :=
  { p with timers := p.timers - 1 }

/-- A suspended activation: `recompile` called as the click handler (line 47), or
`recompileIfOutOfDate` called at line 71 or by a timer. -/
inductive Task (J : Type) where
  | click (k : RecompilePc J)
  | tick (k : TickPc J)
deriving DecidableEq, Repr

/-- The page with its suspended activations. -/
structure System (J : Type) where
  page : Page J
  tasks : List (Task J)
deriving DecidableEq, Repr

/-- What the browser can do to the running script. -/
inductive Event (J : Type) where
  /-- the user clicks the button: `recompile()` is called -/
  | click
  /-- the user sets the checkbox -/
  | setChecked (b : Bool)
  /-- the user edits the URL field -/
  | setUrl (u : String)
  /-- a pending timer runs `recompileIfOutOfDate()` -/
  | timer
  /-- the promise the `i`-th suspended activation awaits settles -/
  | settle (i : Nat) (sig : Signal J)
deriving DecidableEq, Repr

/-- The page as lines 20-58 leave it. -/
def initialPage (J : Type) : Page J :=
  { urlValue := "http://localhost:8000/data"
    innerText := "Recompile"
    lastLoadedVersion := ""
    checked := true
    timers := 0
    log := [] }

/-- Adds the activation of a tick to the system unless it has already finished. -/
def spawnTick {J : Type} (tasks : List (Task J)) :
    Page J × Step (TickPc J) Unit → System J
  | (p, Step.suspended k) => { page := p, tasks := tasks ++ [Task.tick k] }
  | (p, Step.returned _) => { page := p, tasks := tasks }
  | (p, Step.rejected) => { page := p, tasks := tasks }

/-- Keeps a suspended activation in place and drops a finished one.  The promise of a
finished top-level activation has no handler: a rejection is only reported by the
browser. -/
def settleTask {J κ : Type} (tasks : List (Task J)) (i : Nat) (mk : κ → Task J) :
    Page J × Step κ Unit → System J
  | (p, Step.suspended k) => { page := p, tasks := tasks.set i (mk k) }
  | (p, Step.returned _) => { page := p, tasks := tasks.eraseIdx i }
  | (p, Step.rejected) => { page := p, tasks := tasks.eraseIdx i }

/-- The script after its top-level code has run: line 71 calls `recompileIfOutOfDate()`
directly. -/
def start (J : Type) : System J :=
  spawnTick [] (recompileIfOutOfDate (initialPage J))

/-- One event.  `none`: the event cannot happen in this state. -/
def System.step {J : Type} (host : Calc J) (s : System J) : Event J → Option (System J)
  | Event.click =>
    let pk := recompile s.page
    some { page := pk.1, tasks := s.tasks ++ [Task.click pk.2] }
  | Event.setChecked b => some { s with page := { s.page with checked := b } }
  | Event.setUrl u => some { s with page := { s.page with urlValue := u } }
  | Event.timer =>
    if s.page.timers = 0 then none
    else some (spawnTick s.tasks (recompileIfOutOfDate (fire s.page)))
  | Event.settle i sig =>
    match s.tasks[i]? with
    | none => none
    | some (Task.click k) =>
      (recompileResume host s.page k sig).map (settleTask s.tasks i Task.click)
    | some (Task.tick k) =>
      (tickResume host s.page k sig).map (settleTask s.tasks i Task.tick)

/-- A sequence of events from state `s`. -/
def System.run {J : Type} (host : Calc J) (s : System J) : List (Event J) → Option (System J)
  | [] => some s
  | e :: es =>
    match s.step host e with
    | none => none
    | some s1 => s1.run host es

/-- Whether a suspended activation is a poller tick. -/
def Task.isTick {J : Type} : Task J → Bool
  | Task.tick _ => true
  | Task.click _ => false

/-- Number of poller ticks that are running (suspended at an `await`) or pending in a
timer. -/
def System.pollers {J : Type} (s : System J) : Nat :=
  s.tasks.countP Task.isTick + s.page.timers

/-- Whether an effect is a call of `Calc.setState`. -/
def Effect.isSetState {J : Type} : Effect J → Bool
  | Effect.setState _ => true
  | _ => false

/-- Whether an effect is a call of `setTimeout`. -/
def Effect.isSetTimeout {J : Type} : Effect J → Bool
  | Effect.setTimeout _ => true
  | _ => false

/-- Whether an effect is an HTTP request. -/
def Effect.isFetch {J : Type} : Effect J → Bool
  | Effect.fetch _ => true
  | _ => false

/-- The argument of a `Calc.setState` call. -/
def Effect.state? {J : Type} : Effect J → Option J
  | Effect.setState j => some j
  | _ => none

/-- The value of a `getVersion()` return. -/
def Effect.version? {J : Type} : Effect J → Option String
  | Effect.gotVersion v => some v
  | _ => none

/-- Whether an effect is the request `fetch(u)`. -/
def Effect.isFetchOf {J : Type} (u : String) : Effect J → Bool
  | Effect.fetch w => decide (w = u)
  | _ => false

/-- The argument of the last `Calc.setState` call in a log: the state the calculator
shows. -/
def lastSetState {J : Type} (log : List (Effect J)) : Option J :=
  log.reverse.findSome? Effect.state?

/-- The last value `getVersion()` returned in a log. -/
def lastVersion {J : Type} (log : List (Effect J)) : Option String :=
  log.reverse.findSome? Effect.version?

/-- How the tick sees the outcome of the `recompile()` it awaits at line 65 (lines
65-68). -/
def afterRecompile {J : Type} :
    Page J × Step (RecompilePc J) Unit → Page J × Step (TickPc J) Unit
  | (p, Step.suspended k) => (p, Step.suspended (TickPc.recompile k))
  | (p, Step.rejected) => (p, Step.rejected)
  | (p, Step.returned _) => (schedule p, Step.returned ())

/-- Timers a tick has added when it stands at `st`. -/
def Step.scheduled {κ : Type} : Step κ Unit → Nat
  | Step.returned _ => 1
  | _ => 0

/-- The poller going on for `n` more ticks while the server answers every version
request with `r`: each pending timer fires and the tick it starts runs to its end.
`none`: some tick does not return. -/
def pollAgain {J : Type} (host : Calc J) (r : Response J) : Nat → Page J → Option (Page J)
  | 0, q => some q
  | n + 1, q =>
    match tickRun host (fire q) [Signal.response r, Signal.body] with
    | some (q1, Step.returned _) => pollAgain host r n q1
    | _ => none

/-- A calculator host that accepts every state. -/
def okCalc : Calc Nat := { throws := fun _ => false }

/-- A calculator host that rejects every state. -/
def badCalc : Calc Nat := { throws := fun _ => true }

/-- A response with body `v1`, which is not JSON. -/
def respV1 : Response Nat := { status := 200, text := "v1", json := none }

/-- A response with body `v2`, which is not JSON. -/
def respV2 : Response Nat := { status := 200, text := "v2", json := none }

/-- A response whose body is the JSON value `7`. -/
def respState : Response Nat := { status := 200, text := "7", json := some 7 }

/-- A `404` response whose body is the JSON value `7`. -/
def resp404 : Response Nat := { status := 404, text := "7", json := some 7 }

/-- The default page after a click-started reload of state `7` with version `v1`. -/
def demoAfterClick : Page Nat :=
  { urlValue := "http://localhost:8000/data"
    innerText := "Recompile"
    lastLoadedVersion := "v1"
    checked := true
    timers := 0
    log := [Effect.fetch "http://localhost:8000/data", Effect.setState 7,
      Effect.fetch "http://localhost:8000/data/version", Effect.gotVersion "v1"] }

/-- The page after the first tick of the script has reloaded state `7`, with the version
text `v1` compared and `v2` stored. -/
def demoAfterReload : Page Nat :=
  { urlValue := "http://localhost:8000/data"
    innerText := "Recompile"
    lastLoadedVersion := "v2"
    checked := true
    timers := 1
    log := [Effect.fetch "http://localhost:8000/data/version", Effect.gotVersion "v1",
      Effect.fetch "http://localhost:8000/data", Effect.setState 7,
      Effect.fetch "http://localhost:8000/data/version", Effect.gotVersion "v2",
      Effect.setTimeout 200] }

/-- A state with a tick and a click-started reload both in flight. -/
def demoSystem : System Nat :=
  { page :=
      { urlValue := "http://localhost:8000/data"
        innerText := "Fetching..."
        lastLoadedVersion := ""
        checked := true
        timers := 0
        log := [Effect.fetch "http://localhost:8000/data/version",
          Effect.fetch "http://localhost:8000/data", Effect.gotVersion "v1",
          Effect.fetch "http://localhost:8000/data"] }
    tasks := [Task.tick (TickPc.recompile (RecompilePc.stateJson respState)),
      Task.click RecompilePc.stateFetch] }

/-- A run of the script in which a click made before a tick finishes between that tick
and the next one.  The first tick of the script reloads and stores `v1`; the user clicks;
the timer starts a tick, which gets `v1` and returns; the reload of the click gets its
state and then the version text `v2`; the timer starts the next tick, which gets `v1`. -/
def clickBeforeTicks : List (Event Nat) :=
  [Event.settle 0 (Signal.response respV1), Event.settle 0 Signal.body,
   Event.settle 0 (Signal.response respState), Event.settle 0 Signal.body,
   Event.settle 0 (Signal.response respV1), Event.settle 0 Signal.body,
   Event.click,
   Event.timer,
   Event.settle 1 (Signal.response respV1), Event.settle 1 Signal.body,
   Event.settle 0 (Signal.response respState), Event.settle 0 Signal.body,
   Event.settle 0 (Signal.response respV2), Event.settle 0 Signal.body,
   Event.timer,
   Event.settle 0 (Signal.response respV1), Event.settle 0 Signal.body]

/-- The page at the last `await` of a reload that a tick started on the default page:
the second version response has arrived and its body is being read. -/
def demoBeforeReturn : Page Nat :=
  { urlValue := "http://localhost:8000/data"
    innerText := "Fetching..."
    lastLoadedVersion := ""
    checked := true
    timers := 0
    log := [Effect.fetch "http://localhost:8000/data/version", Effect.gotVersion "v1",
      Effect.fetch "http://localhost:8000/data", Effect.setState 7,
      Effect.fetch "http://localhost:8000/data/version"] }

section Lemmas
variable {J : Type}


theorem drive_nil {κ α : Type} (resume : Page J → κ → Signal J → Option (Page J × Step κ α))
    (st : Page J × Step κ α) : drive resume st [] = some st := by
  rcases st with ⟨p, _ | _ | _⟩ <;> rfl

theorem drive_suspended_cons {κ α : Type}
    (resume : Page J → κ → Signal J → Option (Page J × Step κ α))
    (p : Page J) (k : κ) (s : Signal J) (ss : List (Signal J)) :
    drive resume (p, Step.suspended k) (s :: ss)
      = (resume p k s).bind (fun st => drive resume st ss) := by
  simp only [drive]
  cases resume p k s <;> rfl

theorem drive_returned_eq {κ α : Type}
    (resume : Page J → κ → Signal J → Option (Page J × Step κ α))
    (p : Page J) (a : α) (sigs : List (Signal J)) (out : Page J × Step κ α) :
    drive resume (p, Step.returned a) sigs = some out ↔ sigs = [] ∧ out = (p, Step.returned a) := by
  cases sigs with
  | nil => simp [drive, eq_comm]
  | cons s ss => simp [drive]

theorem drive_rejected_eq {κ α : Type}
    (resume : Page J → κ → Signal J → Option (Page J × Step κ α))
    (p : Page J) (sigs : List (Signal J)) (out : Page J × Step κ α) :
    drive resume (p, Step.rejected) sigs = some out ↔ sigs = [] ∧ out = (p, Step.rejected) := by
  cases sigs with
  | nil => simp [drive, eq_comm]
  | cons s ss => simp [drive]


theorem recompileRun_returned (host : Calc J) (p p1 : Page J) (sigs : List (Signal J))
    (h : recompileRun host p sigs = some (p1, Step.returned ())) :
    ∃ rs j rv, sigs = [Signal.response rs, Signal.body, Signal.response rv, Signal.body]
      ∧ rs.json = some j ∧ host.throws j = false
      ∧ p1 = { p with
                innerText := "Recompile"
                lastLoadedVersion := rv.text
                log := p.log ++ [Effect.fetch p.urlValue, Effect.setState j,
                  Effect.fetch (p.urlValue ++ "/version"), Effect.gotVersion rv.text] } := by
  simp only [recompileRun, recompile] at h
  rcases sigs with _ | ⟨s1, sigs⟩
  · simp [drive_nil] at h
  cases s1 <;>
    simp [drive_suspended_cons, recompileResume, drive_rejected_eq] at h
  rename_i rs
  rcases sigs with _ | ⟨s2, sigs⟩
  · simp [drive_nil] at h
  cases s2 <;>
    simp [drive_suspended_cons, recompileResume, drive_rejected_eq] at h
  cases hj : rs.json with
  | none => simp [hj, drive_rejected_eq] at h
  | some j =>
    cases hok : host.throws j with
    | true => simp [hj, hok, drive_rejected_eq] at h
    | false =>
      simp only [hj, hok, getVersion] at h
      rcases sigs with _ | ⟨s3, sigs⟩
      · simp [drive_nil] at h
      cases s3 <;>
        simp [drive_suspended_cons, recompileResume, getVersionResume, drive_rejected_eq] at h
      rename_i rv
      rcases sigs with _ | ⟨s4, sigs⟩
      · simp [drive_nil] at h
      cases s4 <;>
        simp [drive_suspended_cons, recompileResume, getVersionResume, drive_rejected_eq,
          drive_returned_eq] at h
      refine ⟨rs, j, rv, ?_, hj, hok, ?_⟩
      · simp [h.1]
      · rw [h.2]


theorem drive_tick_recompile (host : Calc J) (sigs : List (Signal J)) (p : Page J)
    (k : RecompilePc J) :
    drive (tickResume host) (p, Step.suspended (TickPc.recompile k)) sigs
      = (drive (recompileResume host) (p, Step.suspended k) sigs).map afterRecompile := by
  induction sigs generalizing p k with
  | nil => simp [drive_nil, afterRecompile]
  | cons s ss ih =>
    rw [drive_suspended_cons, drive_suspended_cons]
    simp only [tickResume]
    cases hr : recompileResume host p k s with
    | none => simp
    | some out =>
      rcases out with ⟨p1, k1 | a | _⟩
      · simp [ih]
      · cases ss <;> simp [drive, afterRecompile]
      · cases ss <;> simp [drive, afterRecompile]

theorem tickRun_returned (host : Calc J) (p p1 : Page J) (sigs : List (Signal J))
    (hc : p.checked = true)
    (h : tickRun host p sigs = some (p1, Step.returned ())) :
    (∃ r1, sigs = [Signal.response r1, Signal.body] ∧ r1.text = p.lastLoadedVersion
      ∧ p1 = schedule { p with
          log := p.log ++ [Effect.fetch (p.urlValue ++ "/version"), Effect.gotVersion r1.text] })
    ∨ (∃ r1 rs j rv, sigs = [Signal.response r1, Signal.body, Signal.response rs, Signal.body,
          Signal.response rv, Signal.body]
      ∧ r1.text ≠ p.lastLoadedVersion ∧ rs.json = some j ∧ host.throws j = false
      ∧ p1 = schedule { p with
          innerText := "Recompile"
          lastLoadedVersion := rv.text
          log := p.log ++ [Effect.fetch (p.urlValue ++ "/version"), Effect.gotVersion r1.text,
            Effect.fetch p.urlValue, Effect.setState j,
            Effect.fetch (p.urlValue ++ "/version"), Effect.gotVersion rv.text] }) := by
  rw [tickRun, recompileIfOutOfDate, if_pos hc] at h
  simp only [getVersion] at h
  rcases sigs with _ | ⟨s1, sigs⟩
  · simp [drive_nil] at h
  cases s1 <;>
    simp [drive_suspended_cons, tickResume, getVersionResume, drive_rejected_eq] at h
  rename_i r1
  rcases sigs with _ | ⟨s2, sigs⟩
  · simp [drive_nil] at h
  cases s2 <;>
    simp [drive_suspended_cons, tickResume, getVersionResume, drive_rejected_eq] at h
  by_cases hv : r1.text = p.lastLoadedVersion
  · left
    simp [hv, drive_returned_eq] at h
    refine ⟨r1, by simp [h.1], hv, ?_⟩
    rw [h.2, hv]
  · right
    simp only [hv, if_false, Option.some_bind] at h
    rw [drive_tick_recompile] at h
    obtain ⟨out, hout, hmap⟩ := Option.map_eq_some'.mp h
    rcases out with ⟨p2, k1 | a | _⟩
    · simp [afterRecompile] at hmap
    · obtain ⟨rs, j, rv, hs, hj, hok, hp2⟩ := recompileRun_returned host _ p2 sigs hout
      simp only [afterRecompile, Prod.mk.injEq, and_true] at hmap
      refine ⟨r1, rs, j, rv, by simp [hs], hv, hj, hok, ?_⟩
      rw [← hmap, hp2]
      simp
    · simp [afterRecompile] at hmap


theorem getVersionResume_timers (p p1 : Page J) (k : VersionPc J) (sig : Signal J)
    (st : Step (VersionPc J) String) (h : getVersionResume p k sig = some (p1, st)) :
    p1.timers = p.timers := by
  cases k <;> cases sig <;> simp [getVersionResume] at h <;> simp [← h.1]

theorem recompileResume_timers (host : Calc J) (p p1 : Page J) (k : RecompilePc J)
    (sig : Signal J) (st : Step (RecompilePc J) Unit)
    (h : recompileResume host p k sig = some (p1, st)) : p1.timers = p.timers := by
  cases k with
  | stateFetch => cases sig <;> simp [recompileResume] at h <;> simp [← h.1]
  | stateJson r =>
    cases sig with
    | rejected =>
      simp [recompileResume] at h
      simp [← h.1]
    | response r1 => simp [recompileResume] at h
    | body =>
      simp only [recompileResume] at h
      cases hj : r.json with
      | none => simp [hj] at h; simp [← h.1]
      | some j =>
        cases hok : host.throws j <;> simp [hj, hok, getVersion] at h <;> simp [← h.1]
  | version kv =>
    simp only [recompileResume] at h
    cases hv : getVersionResume p kv sig with
    | none => simp [hv] at h
    | some out =>
      rcases out with ⟨p2, k1 | a | _⟩ <;> simp [hv] at h <;>
        simp [← h.1, getVersionResume_timers p p2 kv sig _ hv]

theorem tickResume_timers (host : Calc J) (p p1 : Page J) (k : TickPc J)
    (sig : Signal J) (st : Step (TickPc J) Unit)
    (h : tickResume host p k sig = some (p1, st)) : p1.timers = p.timers + st.scheduled := by
  cases k with
  | version kv =>
    simp only [tickResume] at h
    cases hv : getVersionResume p kv sig with
    | none => simp [hv] at h
    | some out =>
      have ht := fun p2 st2 => getVersionResume_timers p p2 kv sig st2
      rcases out with ⟨p2, k1 | a | _⟩
      · simp [hv] at h
        simp [← h.1, ← h.2, Step.scheduled, ht p2 _ hv]
      · simp only [hv] at h
        by_cases hc : a = p2.lastLoadedVersion
        · simp [hc, schedule] at h
          simp [← h.1, ← h.2, Step.scheduled, ht p2 _ hv]
        · simp [hc, recompile] at h
          simp [← h.1, ← h.2, Step.scheduled, ht p2 _ hv]
      · simp [hv] at h
        simp [← h.1, ← h.2, Step.scheduled, ht p2 _ hv]
  | recompile kr =>
    simp only [tickResume] at h
    cases hv : recompileResume host p kr sig with
    | none => simp [hv] at h
    | some out =>
      have ht := fun p2 st2 => recompileResume_timers host p p2 kr sig st2
      rcases out with ⟨p2, k1 | a | _⟩ <;> simp [hv, schedule] at h <;>
        simp [← h.1, ← h.2, Step.scheduled, ht p2 _ hv]

theorem countP_set_of_get {α : Type} (f : α → Bool) (l : List α) (i : Nat) (a b : α)
    (h : l[i]? = some a) (hab : f b = f a) : (l.set i b).countP f = l.countP f := by
  induction l generalizing i with
  | nil => simp at h
  | cons x xs ih =>
    cases i with
    | zero =>
      simp at h
      subst h
      simp [List.countP_cons, hab]
    | succ n =>
      simp at h
      simp [List.countP_cons, ih n h]

theorem countP_eraseIdx_of_get {α : Type} (f : α → Bool) (l : List α) (i : Nat) (a : α)
    (h : l[i]? = some a) :
    (l.eraseIdx i).countP f + (if f a then 1 else 0) = l.countP f := by
  induction l generalizing i with
  | nil => simp at h
  | cons x xs ih =>
    cases i with
    | zero =>
      simp at h
      subst h
      simp [List.countP_cons]
    | succ n =>
      simp at h
      have := ih n h
      simp [List.countP_cons]
      omega

theorem step_pollers (host : Calc J) (s s1 : System J) (e : Event J)
    (h : s.step host e = some s1) : s1.pollers ≤ s.pollers := by
  cases e with
  | click =>
    simp [System.step, recompile] at h
    subst h
    simp [System.pollers, List.countP_append, Task.isTick]
  | setChecked b =>
    simp [System.step] at h
    subst h
    simp [System.pollers]
  | setUrl u =>
    simp [System.step] at h
    subst h
    simp [System.pollers]
  | timer =>
    simp only [System.step] at h
    by_cases ht : s.page.timers = 0
    · simp [ht] at h
    · simp only [ht, if_false, Option.some.injEq] at h
      subst h
      by_cases hc : s.page.checked = true
      · simp [recompileIfOutOfDate, fire, hc, spawnTick, getVersion, System.pollers,
          List.countP_append, Task.isTick]
        omega
      · simp [recompileIfOutOfDate, fire, hc, spawnTick, schedule, System.pollers]
        omega
  | settle i sig =>
    simp only [System.step] at h
    cases ht : s.tasks[i]? with
    | none => simp [ht] at h
    | some t =>
      cases t with
      | click k =>
        simp only [ht] at h
        obtain ⟨out, hout, hmap⟩ := Option.map_eq_some'.mp h
        rcases out with ⟨p2, st⟩
        have htm := recompileResume_timers host s.page p2 k sig st hout
        have he := countP_eraseIdx_of_get Task.isTick s.tasks i _ ht
        subst hmap
        rcases st with k1 | a | _
        · simp [settleTask, System.pollers, htm,
            countP_set_of_get Task.isTick s.tasks i _ (Task.click k1) ht rfl]
        · simp [Task.isTick] at he
          simp [settleTask, System.pollers, htm, he]
        · simp [Task.isTick] at he
          simp [settleTask, System.pollers, htm, he]
      | tick k =>
        simp only [ht] at h
        obtain ⟨out, hout, hmap⟩ := Option.map_eq_some'.mp h
        rcases out with ⟨p2, st⟩
        have htm := tickResume_timers host s.page p2 k sig st hout
        have he := countP_eraseIdx_of_get Task.isTick s.tasks i _ ht
        subst hmap
        rcases st with k1 | a | _
        · simp [settleTask, System.pollers, htm, Step.scheduled,
            countP_set_of_get Task.isTick s.tasks i _ (Task.tick k1) ht rfl]
        · simp [Task.isTick] at he
          simp [settleTask, System.pollers, htm, Step.scheduled]
          omega
        · simp [Task.isTick] at he
          simp [settleTask, System.pollers, htm, Step.scheduled]
          omega

theorem run_pollers (host : Calc J) (evs : List (Event J)) (s s1 : System J)
    (h : s.run host evs = some s1) : s1.pollers ≤ s.pollers := by
  induction evs generalizing s with
  | nil =>
    simp [System.run] at h
    subst h
    exact le_refl _
  | cons e es ih =>
    simp only [System.run] at h
    cases hs : s.step host e with
    | none => simp [hs] at h
    | some s2 =>
      simp only [hs] at h
      exact le_trans (ih s2 h) (step_pollers host s s2 e hs)

theorem start_pollers : (start J).pollers = 1 := by
  simp [start, initialPage, recompileIfOutOfDate, spawnTick, getVersion, System.pollers,
    Task.isTick]

end Lemmas

section LogLemmas
variable {J : Type}

theorem append_version_ne (u : String) : u ++ "/version" ≠ u := by
  intro h
  have hl := congrArg String.length h
  simp [String.length_append] at hl
  exact absurd hl (by decide)

theorem tickRun_same_version (host : Calc J) (q : Page J) (r : Response J)
    (hc : q.checked = true) (hv : r.text = q.lastLoadedVersion) :
    tickRun host q [Signal.response r, Signal.body]
      = some (schedule { q with
                log := q.log ++ [Effect.fetch (q.urlValue ++ "/version"),
                  Effect.gotVersion r.text] },
              Step.returned ()) := by
  rw [tickRun, recompileIfOutOfDate, if_pos hc]
  simp [drive, tickResume, getVersion, getVersionResume, hv]

theorem pollAgain_idle (host : Calc J) (r : Response J) (n : Nat) (q : Page J)
    (hc : q.checked = true) (hv : r.text = q.lastLoadedVersion) :
    ∃ q1, pollAgain host r n q = some q1
      ∧ q1.lastLoadedVersion = q.lastLoadedVersion
      ∧ q1.innerText = q.innerText
      ∧ lastSetState q1.log = lastSetState q.log
      ∧ q1.log.countP Effect.isSetState = q.log.countP Effect.isSetState
      ∧ q1.log.countP (Effect.isFetchOf q.urlValue) = q.log.countP (Effect.isFetchOf q.urlValue)
      ∧ q1.log.countP Effect.isSetTimeout = q.log.countP Effect.isSetTimeout + n := by
  induction n generalizing q with
  | zero => exact ⟨q, rfl, rfl, rfl, rfl, rfl, rfl, rfl⟩
  | succ n ih =>
    have hrun := tickRun_same_version host (fire q) r hc hv
    obtain ⟨q1, h1, h2, h3, h4, h5, h6, h7⟩ :=
      ih (schedule { fire q with
          log := (fire q).log ++ [Effect.fetch ((fire q).urlValue ++ "/version"),
            Effect.gotVersion r.text] }) hc hv
    refine ⟨q1, ?_, ?_, ?_, ?_, ?_, ?_, ?_⟩
    · simp only [pollAgain, hrun]
      exact h1
    · rw [h2]; rfl
    · rw [h3]; rfl
    · rw [h4]
      simp [lastSetState, schedule, fire, Effect.state?]
    · rw [h5]
      simp [schedule, fire, Effect.isSetState, List.countP_append, List.countP_cons]
    · have h6' : q1.log.countP (Effect.isFetchOf q.urlValue) = _ := h6
      rw [h6']
      simp [schedule, fire, Effect.isFetchOf, List.countP_append, List.countP_cons,
        append_version_ne]
    · rw [h7]
      simp [schedule, fire, Effect.isSetTimeout, List.countP_append, List.countP_cons]
      omega

theorem tickResume_returned_version (host : Calc J) (p p1 : Page J) (k : TickPc J)
    (sig : Signal J) (h : tickResume host p k sig = some (p1, Step.returned ())) :
    lastVersion p1.log = some p1.lastLoadedVersion := by
  cases k with
  | version kv =>
    simp only [tickResume] at h
    cases kv with
    | fetch => cases sig <;> simp [getVersionResume] at h
    | text r =>
      cases sig with
      | rejected => simp [getVersionResume] at h
      | response r1 => simp [getVersionResume] at h
      | body =>
        by_cases hv : r.text = p.lastLoadedVersion
        · simp [getVersionResume, hv] at h
          subst h
          simp [lastVersion, schedule, Effect.version?, hv]
        · simp [getVersionResume, hv, recompile] at h
  | recompile kr =>
    simp only [tickResume] at h
    cases kr with
    | stateFetch => cases sig <;> simp [recompileResume] at h
    | stateJson r =>
      cases sig with
      | rejected => simp [recompileResume] at h
      | response r1 => simp [recompileResume] at h
      | body =>
        cases hj : r.json with
        | none => simp [recompileResume, hj] at h
        | some j => cases hok : host.throws j <;> simp [recompileResume, hj, hok] at h
    | version kv =>
      cases kv with
      | fetch => cases sig <;> simp [recompileResume, getVersionResume] at h
      | text r =>
        cases sig with
        | rejected => simp [recompileResume, getVersionResume] at h
        | response r1 => simp [recompileResume, getVersionResume] at h
        | body =>
          simp [recompileResume, getVersionResume] at h
          subst h
          simp [lastVersion, schedule, Effect.version?]

end LogLemmas

section Claims
variable {J : Type}

/-- C1: a run of `recompile` alone on the page, in which the state request resolves
with a body that parses as `j`, the host accepts `j`, and the version request resolves
with `rv`, returns.  What it adds to the log is the state request, one call
`Calc.setState(j)`, the version request and the version text; the button label is
"Fetching..." at the start and after each of the first three awaited promises has
settled (the last of them: the version re-fetch resolves), and "Recompile" at the end. -/
theorem recompile_sets_state_once_and_restores_button (host : Calc J) (p : Page J)
    (rs rv : Response J) (j : J)
    (hj : rs.json = some j) (hok : host.throws j = false) :
    recompileRun host p [Signal.response rs, Signal.body, Signal.response rv, Signal.body]
      = some ({ p with
                innerText := "Recompile"
                lastLoadedVersion := rv.text
                log := p.log ++ [Effect.fetch p.urlValue, Effect.setState j,
                  Effect.fetch (p.urlValue ++ "/version"), Effect.gotVersion rv.text] },
              Step.returned ())
    ∧ [Effect.fetch p.urlValue, Effect.setState j,
        Effect.fetch (p.urlValue ++ "/version"), Effect.gotVersion rv.text].filter
          Effect.isSetState = [Effect.setState j]
    ∧ (∀ n, n < 4 → ∃ q k,
        recompileRun host p
          (List.take n [Signal.response rs, Signal.body, Signal.response rv, Signal.body])
            = some (q, Step.suspended k)
        ∧ q.innerText = "Fetching...") := by
  refine ⟨?_, by simp [Effect.isSetState], ?_⟩
  · simp [recompileRun, drive, recompile, recompileResume, getVersion, getVersionResume,
      hj, hok]
  · intro n hn
    interval_cases n <;>
      simp [recompileRun, drive, recompile, recompileResume, getVersion, getVersionResume,
        hj, hok]

/-- Witness of C1: the default page, a state body `7` and a version body `v1`. -/
theorem recompile_sets_state_once_and_restores_button_witness :
    respState.json = some 7
    ∧ okCalc.throws 7 = false
    ∧ recompileRun okCalc (initialPage Nat)
        [Signal.response respState, Signal.body, Signal.response respV1, Signal.body]
      = some (demoAfterClick, Step.returned ()) :=
  ⟨rfl, rfl,
    (recompile_sets_state_once_and_restores_button okCalc (initialPage Nat) respState respV1 7
      rfl rfl).1⟩

/-- C2, evaluated where it fails: on the page as the script starts it (checkbox checked,
`lastLoadedVersion` empty), a tick whose version fetch rejects, whose state fetch
rejects, whose state body is not JSON, whose `Calc.setState` throws, or whose version
body cannot be read, ends rejected with no timer pending and no `setTimeout` call in the
log; from the start state, after
the version fetch of the first tick has rejected, no activation is left and the timer
event cannot happen. -/
theorem failed_tick_schedules_no_further_tick :
    (tickRun okCalc (initialPage Nat) [Signal.rejected]).map
        (fun o => (o.2, o.1.timers, o.1.log.countP Effect.isSetTimeout))
      = some (Step.rejected, 0, 0)
    ∧ (tickRun okCalc (initialPage Nat)
          [Signal.response respV1, Signal.body, Signal.rejected]).map
        (fun o => (o.2, o.1.timers, o.1.log.countP Effect.isSetTimeout))
      = some (Step.rejected, 0, 0)
    ∧ (tickRun okCalc (initialPage Nat)
          [Signal.response respV1, Signal.body, Signal.response respV2, Signal.body]).map
        (fun o => (o.2, o.1.timers, o.1.log.countP Effect.isSetTimeout))
      = some (Step.rejected, 0, 0)
    ∧ (tickRun badCalc (initialPage Nat)
          [Signal.response respV1, Signal.body, Signal.response respState, Signal.body]).map
        (fun o => (o.2, o.1.timers, o.1.log.countP Effect.isSetTimeout))
      = some (Step.rejected, 0, 0)
    ∧ (tickRun okCalc (initialPage Nat) [Signal.response respV1, Signal.rejected]).map
        (fun o => (o.2, o.1.timers, o.1.log.countP Effect.isSetTimeout))
      = some (Step.rejected, 0, 0)
    ∧ (start Nat).run okCalc [Event.settle 0 Signal.rejected]
      = some { page := { initialPage Nat with
                 log := [Effect.fetch "http://localhost:8000/data/version"] }
               tasks := [] }
    ∧ ((start Nat).run okCalc [Event.settle 0 Signal.rejected, Event.timer]) = none := by
  refine ⟨?_, ?_, ?_, ?_, ?_, ?_, ?_⟩ <;> rfl

/-- C3 as stated fails: in the run `clickBeforeTicks` the click comes before the timer
of a tick that gets the version text `v1` and returns without a reload; no click follows;
the reload of the click then stores `v2`; the next tick gets `v1` again, the same text as
the last one of the tick before it, and starts a reload: it issues a state request and
sets the button label to "Fetching...". -/
theorem same_version_reloads_after_earlier_click :
    clickBeforeTicks.take 7
      = [Event.settle 0 (Signal.response respV1), Event.settle 0 Signal.body,
         Event.settle 0 (Signal.response respState), Event.settle 0 Signal.body,
         Event.settle 0 (Signal.response respV1), Event.settle 0 Signal.body,
         Event.click]
    ∧ Event.click ∉ clickBeforeTicks.drop 7
    ∧ ((start Nat).run okCalc (clickBeforeTicks.take 10)).map
        (fun s => (lastVersion s.page.log, s.page.lastLoadedVersion, s.page.timers, s.tasks))
      = some (some "v1", "v1", 1, [Task.click RecompilePc.stateFetch])
    ∧ ((start Nat).run okCalc (clickBeforeTicks.take 14)).map
        (fun s => (s.page.lastLoadedVersion, s.page.innerText, s.page.timers, s.tasks))
      = some ("v2", "Recompile", 1, [])
    ∧ ((start Nat).run okCalc (clickBeforeTicks.take 16)).map
        (fun s => (s.page.lastLoadedVersion, s.page.innerText, s.tasks))
      = some ("v2", "Recompile", [Task.tick (TickPc.version (VersionPc.text respV1))])
    ∧ ((start Nat).run okCalc clickBeforeTicks).map
        (fun s => (s.page.log.getLast?, s.page.innerText, s.tasks))
      = some (some (Effect.fetch "http://localhost:8000/data"), "Fetching...",
          [Task.tick (TickPc.recompile RecompilePc.stateFetch)]) := by
  refine ⟨rfl, by decide, rfl, rfl, rfl, rfl⟩

/-- C3 amended: take the point at which a poller tick returns, whatever ran beside it,
and let `v` be the last version text received by then.  If the next tick starts with the
checkbox checked on a page whose `lastLoadedVersion` no reload has written since, runs
with nothing else touching the page, and gets the same text `v`, then it returns after
its version request alone: the log gains the version request, the text and the
`setTimeout` call (no state request, no `Calc.setState` call), and `lastLoadedVersion`
and the button label are left as they were. -/
theorem same_version_twice_triggers_no_reload (host : Calc J) (p p1 q : Page J)
    (k : TickPc J) (sig : Signal J) (r2 : Response J) (v : String)
    (h1 : tickResume host p k sig = some (p1, Step.returned ()))
    (hlast : lastVersion p1.log = some v)
    (hq : q.lastLoadedVersion = p1.lastLoadedVersion)
    (hc2 : q.checked = true)
    (hsame : r2.text = v) :
    tickRun host q [Signal.response r2, Signal.body]
      = some ({ q with
                timers := q.timers + 1
                log := q.log ++ [Effect.fetch (q.urlValue ++ "/version"),
                  Effect.gotVersion v, Effect.setTimeout 200] },
              Step.returned ())
    ∧ tickRun host q [Signal.response r2]
      = some ({ q with log := q.log ++ [Effect.fetch (q.urlValue ++ "/version")] },
              Step.suspended (TickPc.version (VersionPc.text r2))) := by
  have hv : r2.text = q.lastLoadedVersion := by
    have h2 := tickResume_returned_version host p p1 k sig h1
    rw [hlast] at h2
    rw [hq, hsame]
    exact Option.some.inj h2
  refine ⟨?_, ?_⟩
  · rw [tickRun_same_version host q r2 hc2 hv, hsame]
    simp [schedule]
  · rw [tickRun, recompileIfOutOfDate, if_pos hc2]
    simp [drive, tickResume, getVersion, getVersionResume]

/-- Witness of the amended C3: the first tick of the script returns from its reload
having stored `v2`; the second tick, started by the timer, gets `v2` again. -/
theorem same_version_twice_triggers_no_reload_witness :
    tickResume okCalc demoBeforeReturn
        (TickPc.recompile (RecompilePc.version (VersionPc.text respV2))) Signal.body
      = some (demoAfterReload, Step.returned ())
    ∧ lastVersion demoAfterReload.log = some "v2"
    ∧ (fire demoAfterReload).lastLoadedVersion = demoAfterReload.lastLoadedVersion
    ∧ (fire demoAfterReload).checked = true
    ∧ respV2.text = "v2"
    ∧ tickRun okCalc (fire demoAfterReload) [Signal.response respV2, Signal.body]
      = some ({ fire demoAfterReload with
                timers := (fire demoAfterReload).timers + 1
                log := (fire demoAfterReload).log
                  ++ [Effect.fetch ((fire demoAfterReload).urlValue ++ "/version"),
                    Effect.gotVersion "v2", Effect.setTimeout 200] },
              Step.returned ()) :=
  ⟨rfl, rfl, rfl, rfl, rfl,
    (same_version_twice_triggers_no_reload okCalc demoBeforeReturn demoAfterReload
      (fire demoAfterReload)
      (TickPc.recompile (RecompilePc.version (VersionPc.text respV2))) Signal.body
      respV2 "v2" rfl rfl rfl rfl rfl).1⟩

/-- C4: a poller tick that starts with the checkbox checked, gets a version text other
than `lastLoadedVersion`, and whose fetches then succeed (the state body parses as `j`,
the host accepts `j`, the second version request resolves with `rv`) returns.  The log
gains, in this order, the version request and its text, one state request, one call
`Calc.setState(j)`, the second version request and its text, and last the `setTimeout`
call.  At the end `lastLoadedVersion` is the second version text and one more timer is
pending; at every earlier point of the tick no timer has been added and no `setTimeout`
call made. -/
theorem changed_version_reloads_once_before_rescheduling (host : Calc J) (p : Page J)
    (r1 rs rv : Response J) (j : J)
    (hc : p.checked = true) (hne : r1.text ≠ p.lastLoadedVersion)
    (hj : rs.json = some j) (hok : host.throws j = false) :
    tickRun host p
        [Signal.response r1, Signal.body, Signal.response rs, Signal.body,
         Signal.response rv, Signal.body]
      = some ({ p with
                innerText := "Recompile"
                lastLoadedVersion := rv.text
                timers := p.timers + 1
                log := p.log ++ [Effect.fetch (p.urlValue ++ "/version"),
                  Effect.gotVersion r1.text, Effect.fetch p.urlValue, Effect.setState j,
                  Effect.fetch (p.urlValue ++ "/version"), Effect.gotVersion rv.text,
                  Effect.setTimeout 200] },
              Step.returned ())
    ∧ [Effect.fetch (p.urlValue ++ "/version"), Effect.gotVersion r1.text,
        Effect.fetch p.urlValue, Effect.setState j,
        Effect.fetch (p.urlValue ++ "/version"), Effect.gotVersion rv.text,
        Effect.setTimeout 200].countP (Effect.isFetchOf p.urlValue) = 1
    ∧ [Effect.fetch (p.urlValue ++ "/version"), Effect.gotVersion r1.text,
        Effect.fetch p.urlValue, Effect.setState j,
        Effect.fetch (p.urlValue ++ "/version"), Effect.gotVersion rv.text,
        Effect.setTimeout 200].countP Effect.isSetState = 1
    ∧ (∀ n, n < 6 → ∃ q k,
        tickRun host p
          (List.take n [Signal.response r1, Signal.body, Signal.response rs, Signal.body,
            Signal.response rv, Signal.body]) = some (q, Step.suspended k)
        ∧ q.timers = p.timers
        ∧ q.log.countP Effect.isSetTimeout = p.log.countP Effect.isSetTimeout) := by
  have hstart : tickRun host p = drive (tickResume host)
      ((getVersion p).1, Step.suspended (TickPc.version (getVersion p).2)) := by
    funext sigs
    rw [tickRun, recompileIfOutOfDate, if_pos hc]
  refine ⟨?_, ?_, ?_, ?_⟩
  · rw [hstart]
    simp [drive, tickResume, recompile, recompileResume, getVersion, getVersionResume,
      hne, hj, hok, schedule]
  · simp [Effect.isFetchOf, List.countP_cons, append_version_ne]
  · simp [Effect.isSetState, List.countP_cons]
  · intro n hn
    rw [hstart]
    interval_cases n <;>
      simp [drive, tickResume, recompile, recompileResume, getVersion,
        getVersionResume, hne, hj, hok, List.countP_append, List.countP_cons,
        Effect.isSetTimeout]

/-- Witness of C4: the first tick of the script, with version texts `v1` then `v2`. -/
theorem changed_version_reloads_once_before_rescheduling_witness :
    (initialPage Nat).checked = true
    ∧ respV1.text ≠ (initialPage Nat).lastLoadedVersion
    ∧ respState.json = some 7
    ∧ okCalc.throws 7 = false
    ∧ tickRun okCalc (initialPage Nat)
        [Signal.response respV1, Signal.body, Signal.response respState, Signal.body,
         Signal.response respV2, Signal.body] = some (demoAfterReload, Step.returned ()) :=
  ⟨rfl, by decide, rfl, rfl,
    (changed_version_reloads_once_before_rescheduling okCalc (initialPage Nat)
      respV1 respState respV2 7 rfl (by decide) rfl rfl).1⟩

/-- C5: a tick that starts with the checkbox unchecked awaits nothing and returns at
once; all it does is call `setTimeout(recompileIfOutOfDate, 200)` once: no request and
no `Calc.setState` call enter the log, and `lastLoadedVersion`, the button label and the
URL field are left as they were. -/
theorem unchecked_tick_only_reschedules (host : Calc J) (p : Page J)
    (hc : p.checked = false) :
    tickRun host p [] = some (schedule p, Step.returned ())
    ∧ (∀ s ss, tickRun host p (s :: ss) = none)
    ∧ (schedule p).log = p.log ++ [Effect.setTimeout 200]
    ∧ (schedule p).timers = p.timers + 1
    ∧ (schedule p).lastLoadedVersion = p.lastLoadedVersion
    ∧ (schedule p).innerText = p.innerText
    ∧ (schedule p).urlValue = p.urlValue := by
  refine ⟨?_, ?_, rfl, rfl, rfl, rfl, rfl⟩
  · simp [tickRun, drive, recompileIfOutOfDate, hc]
  · intro s ss
    simp [tickRun, drive, recompileIfOutOfDate, hc]

/-- Witness of C5: the default page with the checkbox unchecked and a stale version. -/
theorem unchecked_tick_only_reschedules_witness :
    ({ initialPage Nat with checked := false, lastLoadedVersion := "v0" } : Page Nat).checked
      = false
    ∧ tickRun okCalc { initialPage Nat with checked := false, lastLoadedVersion := "v0" } []
      = some ({ initialPage Nat with
                checked := false
                lastLoadedVersion := "v0"
                timers := 1
                log := [Effect.setTimeout 200] },
              Step.returned ()) :=
  ⟨rfl, (unchecked_tick_only_reschedules okCalc
    { initialPage Nat with checked := false, lastLoadedVersion := "v0" } rfl).1⟩

/-- C6: a run of `recompile` whose state request rejects, or resolves with a body that
is not valid JSON, ends rejected; the page is then as `recompile` left it before its
first `await`: the state request is the only addition to the log (no `Calc.setState`
call), `lastLoadedVersion` is what it was, and the button label is "Fetching...", as it
is at every earlier point of the run. -/
theorem failed_state_fetch_leaves_button_fetching (host : Calc J) (p : Page J) :
    recompileRun host p [Signal.rejected]
      = some ({ p with innerText := "Fetching...", log := p.log ++ [Effect.fetch p.urlValue] },
              Step.rejected)
    ∧ (∀ r : Response J, r.json = none →
        recompileRun host p [Signal.response r, Signal.body]
          = some ({ p with
                    innerText := "Fetching..."
                    log := p.log ++ [Effect.fetch p.urlValue] },
                  Step.rejected)
        ∧ recompileRun host p [Signal.response r]
          = some ({ p with
                    innerText := "Fetching..."
                    log := p.log ++ [Effect.fetch p.urlValue] },
                  Step.suspended (RecompilePc.stateJson r)))
    ∧ recompileRun host p []
      = some ({ p with innerText := "Fetching...", log := p.log ++ [Effect.fetch p.urlValue] },
              Step.suspended RecompilePc.stateFetch) := by
  refine ⟨?_, ?_, ?_⟩
  · simp [recompileRun, drive, recompile, recompileResume]
  · intro r hr
    simp [recompileRun, drive, recompile, recompileResume, hr]
  · simp [recompileRun, drive, recompile]

/-- Witness of C6: the state request of the default page answered with the text `v1`. -/
theorem failed_state_fetch_leaves_button_fetching_witness :
    respV1.json = none
    ∧ recompileRun okCalc (initialPage Nat) [Signal.response respV1, Signal.body]
      = some ({ initialPage Nat with
                innerText := "Fetching..."
                log := [] ++ [Effect.fetch "http://localhost:8000/data"] },
              Step.rejected) :=
  ⟨rfl, ((failed_state_fetch_leaves_button_fetching okCalc (initialPage Nat)).2.1
    respV1 rfl).1⟩

/-- C7 as stated fails: a run of `recompile` whose state request gets a `404` response
with body `7` returns, having called `Calc.setState(7)` and overwritten
`lastLoadedVersion`; and `getVersion` returns the body of a `500` response. -/
theorem error_status_response_is_not_a_failure :
    recompileRun okCalc (initialPage Nat)
        [Signal.response resp404, Signal.body, Signal.response respV1, Signal.body]
      = some ({ initialPage Nat with
                innerText := "Recompile"
                lastLoadedVersion := "v1"
                log := [Effect.fetch "http://localhost:8000/data", Effect.setState 7,
                  Effect.fetch "http://localhost:8000/data/version",
                  Effect.gotVersion "v1"] },
              Step.returned ())
    ∧ getVersionRun (initialPage Nat)
        [Signal.response { status := 500, text := "oops", json := none }, Signal.body]
      = some ({ initialPage Nat with
                log := [Effect.fetch "http://localhost:8000/data/version",
                  Effect.gotVersion "oops"] },
              Step.returned "oops") := by
  constructor <;> rfl

/-- C7 amended: the status of a response plays no part.  A state response of any status
whose body is not valid JSON makes the run of `recompile` end rejected without a
`Calc.setState` call and with `lastLoadedVersion` kept; a state response of any status
whose body parses as `j`, accepted by the host, leads to `Calc.setState(j)` and to
`lastLoadedVersion` overwritten with the body of the version response, of any status;
and `getVersion` returns the body of a response of any status. -/
theorem response_status_is_ignored (host : Calc J) (p : Page J) (n m : Nat) (t : String) :
    recompileRun host p [Signal.response { status := n, text := t, json := none }, Signal.body]
      = some ({ p with innerText := "Fetching...", log := p.log ++ [Effect.fetch p.urlValue] },
              Step.rejected)
    ∧ (∀ (j : J) (v : String) (jv : Option J), host.throws j = false →
        recompileRun host p
          [Signal.response { status := n, text := t, json := some j }, Signal.body,
           Signal.response { status := m, text := v, json := jv }, Signal.body]
          = some ({ p with
                    innerText := "Recompile"
                    lastLoadedVersion := v
                    log := p.log ++ [Effect.fetch p.urlValue, Effect.setState j,
                      Effect.fetch (p.urlValue ++ "/version"), Effect.gotVersion v] },
                  Step.returned ()))
    ∧ (∀ jv : Option J,
        getVersionRun p [Signal.response { status := n, text := t, json := jv }, Signal.body]
          = some ({ p with
                    log := p.log ++ [Effect.fetch (p.urlValue ++ "/version"),
                      Effect.gotVersion t] },
                  Step.returned t)) := by
  refine ⟨?_, ?_, ?_⟩
  · simp [recompileRun, drive, recompile, recompileResume]
  · intro j v jv hok
    simp [recompileRun, drive, recompile, recompileResume, getVersion, getVersionResume, hok]
  · intro jv
    simp [getVersionRun, drive, getVersion, getVersionResume]

/-- Witness of the amended C7: statuses `404` and `503`. -/
theorem response_status_is_ignored_witness :
    okCalc.throws 7 = false
    ∧ recompileRun okCalc (initialPage Nat)
        [Signal.response { status := 404, text := "7", json := some 7 }, Signal.body,
         Signal.response { status := 503, text := "v1", json := none }, Signal.body]
      = some ({ initialPage Nat with
                innerText := "Recompile"
                lastLoadedVersion := "v1"
                log := [] ++ [Effect.fetch "http://localhost:8000/data", Effect.setState 7,
                  Effect.fetch ("http://localhost:8000/data" ++ "/version"),
                  Effect.gotVersion "v1"] },
              Step.returned ()) :=
  ⟨rfl, (response_status_is_ignored okCalc (initialPage Nat) 404 503 "7").2.1 7 "v1" none rfl⟩

/-- C8: every run of `recompile` that returns has awaited exactly a state response, its
body, a version response and its body, and leaves in `lastLoadedVersion` the text of
that version response, whose request (to `urlInput.value + "/version"`) it issued after
the `Calc.setState` call.  In a poller tick that reloads, the version request whose text
the tick compared comes first in the log and the one of the reload later; the text
stored is that of the later one, whatever the compared text was. -/
theorem lastLoadedVersion_is_the_refetched_version (host : Calc J) (p : Page J) :
    (∀ sigs p1, recompileRun host p sigs = some (p1, Step.returned ()) →
        ∃ rs rv, sigs = [Signal.response rs, Signal.body, Signal.response rv, Signal.body])
    ∧ (∀ rs rv p1,
        recompileRun host p [Signal.response rs, Signal.body, Signal.response rv, Signal.body]
          = some (p1, Step.returned ()) →
        p1.lastLoadedVersion = rv.text
        ∧ ∃ j, p1.log = p.log ++ [Effect.fetch p.urlValue, Effect.setState j,
            Effect.fetch (p.urlValue ++ "/version"), Effect.gotVersion rv.text])
    ∧ (∀ r1 rs rv p1,
        tickRun host p [Signal.response r1, Signal.body, Signal.response rs, Signal.body,
          Signal.response rv, Signal.body] = some (p1, Step.returned ()) →
        p1.lastLoadedVersion = rv.text
        ∧ ∃ j, p1.log = p.log ++ [Effect.fetch (p.urlValue ++ "/version"),
            Effect.gotVersion r1.text, Effect.fetch p.urlValue, Effect.setState j,
            Effect.fetch (p.urlValue ++ "/version"), Effect.gotVersion rv.text,
            Effect.setTimeout 200]) := by
  refine ⟨?_, ?_, ?_⟩
  · intro sigs p1 h
    obtain ⟨rs, j, rv, hs, _⟩ := recompileRun_returned host p p1 sigs h
    exact ⟨rs, rv, hs⟩
  · intro rs rv p1 h
    obtain ⟨rs1, j, rv1, hs, _, _, hp1⟩ := recompileRun_returned host p p1 _ h
    simp at hs
    obtain ⟨_, rfl⟩ := hs
    subst hp1
    exact ⟨rfl, j, rfl⟩
  · intro r1 rs rv p1 h
    cases hc : p.checked with
    | false => simp [tickRun, drive, recompileIfOutOfDate, hc] at h
    | true =>
      rcases tickRun_returned host p p1 _ hc h with
        ⟨r, hs, _⟩ | ⟨ra, rb, j, rc, hs, _, _, _, hp1⟩
      · simp at hs
      · simp at hs
        obtain ⟨rfl, _, rfl⟩ := hs
        subst hp1
        exact ⟨rfl, j, by simp [schedule]⟩

/-- Witness of C8: the first tick of the script compares `v1` and stores `v2`. -/
theorem lastLoadedVersion_is_the_refetched_version_witness :
    tickRun okCalc (initialPage Nat)
        [Signal.response respV1, Signal.body, Signal.response respState, Signal.body,
         Signal.response respV2, Signal.body] = some (demoAfterReload, Step.returned ())
    ∧ demoAfterReload.lastLoadedVersion = respV2.text :=
  ⟨rfl, ((lastLoadedVersion_is_the_refetched_version okCalc (initialPage Nat)).2.2
    respV1 respState respV2 demoAfterReload rfl).1⟩

/-- C9: in every state the script reaches from its start, by any sequence of clicks,
checkbox and URL edits, timer callbacks and settlements of awaited promises, the poller
ticks suspended at an `await` and the pending timers are at most one in all. -/
theorem at_most_one_poller (host : Calc J) (evs : List (Event J)) (s : System J)
    (h : (start J).run host evs = some s) : s.pollers ≤ 1 := by
  have := run_pollers host evs (start J) s h
  rw [start_pollers] at this
  exact this

/-- Witness of C9: a click while the first tick is in flight, then the tick's version
response, its body, and the response to the tick's state request. -/
theorem at_most_one_poller_witness :
    (start Nat).run okCalc
        [Event.click, Event.settle 0 (Signal.response respV1), Event.settle 0 Signal.body,
         Event.settle 0 (Signal.response respState)] = some demoSystem
    ∧ demoSystem.pollers ≤ 1 :=
  ⟨rfl, at_most_one_poller okCalc
    [Event.click, Event.settle 0 (Signal.response respV1), Event.settle 0 Signal.body,
     Event.settle 0 (Signal.response respState)] demoSystem rfl⟩

/-- C10: let a poller tick reload while the server changes between the state request
and the version request of the reload: the tick gets the version text of `r1`, the
state `s1`, and then the text of `rv`, the version of a newer state.  The tick returns
with `lastLoadedVersion` the text of `rv` and `s1` the state last given to
`Calc.setState`.  If from then on the server answers every version request with that
same text, then after any number of further ticks `lastLoadedVersion` is still that
text, `s1` is still the state last given to `Calc.setState`, and the log has gained no
`Calc.setState` call and no state request. -/
theorem stale_state_is_never_replaced (host : Calc J) (p : Page J) (r1 rs rv r : Response J)
    (s1 : J)
    (hc : p.checked = true) (hne : r1.text ≠ p.lastLoadedVersion)
    (hj : rs.json = some s1) (hok : host.throws s1 = false) (hr : r.text = rv.text) :
    ∃ p1,
      tickRun host p [Signal.response r1, Signal.body, Signal.response rs, Signal.body,
        Signal.response rv, Signal.body] = some (p1, Step.returned ())
      ∧ p1.lastLoadedVersion = rv.text
      ∧ lastSetState p1.log = some s1
      ∧ ∀ n, ∃ q, pollAgain host r n p1 = some q
          ∧ q.lastLoadedVersion = rv.text
          ∧ lastSetState q.log = some s1
          ∧ q.log.countP Effect.isSetState = p1.log.countP Effect.isSetState
          ∧ q.log.countP (Effect.isFetchOf p.urlValue)
              = p1.log.countP (Effect.isFetchOf p.urlValue) := by
  refine ⟨schedule { p with
      innerText := "Recompile"
      lastLoadedVersion := rv.text
      log := p.log ++ [Effect.fetch (p.urlValue ++ "/version"), Effect.gotVersion r1.text,
        Effect.fetch p.urlValue, Effect.setState s1,
        Effect.fetch (p.urlValue ++ "/version"), Effect.gotVersion rv.text] }, ?_, rfl, ?_, ?_⟩
  · rw [tickRun, recompileIfOutOfDate, if_pos hc]
    simp [drive, tickResume, recompile, recompileResume, getVersion, getVersionResume,
      hne, hj, hok, schedule]
  · simp [lastSetState, schedule, Effect.state?]
  · intro n
    obtain ⟨q, h1, h2, _, h4, h5, h6, _⟩ := pollAgain_idle host r n
      (schedule { p with
        innerText := "Recompile"
        lastLoadedVersion := rv.text
        log := p.log ++ [Effect.fetch (p.urlValue ++ "/version"), Effect.gotVersion r1.text,
          Effect.fetch p.urlValue, Effect.setState s1,
          Effect.fetch (p.urlValue ++ "/version"), Effect.gotVersion rv.text] }) hc hr
    refine ⟨q, h1, h2, ?_, h5, h6⟩
    rw [h4]
    simp [lastSetState, schedule, Effect.state?]

/-- Witness of C10: the first tick of the script gets `v1`, state `7`, then `v2`, and
the server keeps answering `v2`. -/
theorem stale_state_is_never_replaced_witness :
    (initialPage Nat).checked = true
    ∧ respV1.text ≠ (initialPage Nat).lastLoadedVersion
    ∧ respState.json = some 7
    ∧ okCalc.throws 7 = false
    ∧ respV2.text = respV2.text
    ∧ lastSetState demoAfterReload.log = some 7 := by
  obtain ⟨p1, h1, _, h3, _⟩ := stale_state_is_never_replaced okCalc (initialPage Nat)
    respV1 respState respV2 respV2 7 rfl (by decide) rfl rfl rfl
  have e : some (demoAfterReload, Step.returned ()) = some (p1, Step.returned ()) := h1
  simp only [Option.some.injEq, Prod.mk.injEq, and_true] at e
  subst e
  exact ⟨rfl, by decide, rfl, rfl, rfl, h3⟩

end Claims

end DesmoscriptLoader
